import Mathlib

/-!
Shallow embedding of the live-auction engine of the Bidzr repository.

Sources embedded here:
* `src/unnamed/part_007` — `AuctionSocketManager`: `handlePlaceBid`,
  `handlePutOnBlock`, `handleEndPlayerBidding`, `handleTimerExpired`,
  `finalizePlayerBidding`;
* `src/packages/backend/src/socket/timerManager.ts` — `AuctionTimerManager`:
  `startTimer`, `stopTimer`, `resetTimer`, `tick`;
* `src/unnamed/part_006` — REST `putPlayerOnBlock` (playerController);
* `src/packages/backend/src/controllers/auctionController.ts` — `endAuction`.

The MongoDB collections (auctions, player registrations, teams, bids) are
modelled as association lists keyed by numeric ids, in insertion order —
`findById` is an association lookup, `save` of a fetched document is an
in-place keyed replacement, `new`/`save` of a fresh document is an append
(Mongo natural order), `findOne(...).sort({amount: -1})` is a maximum-by-
amount scan in which ties keep the earliest document.  Socket `emit`s to
the auction room are recorded in an `events` log.  Monetary amounts and
timer seconds are `Int` (JS numbers; the embedded code only ever does exact
integer arithmetic on them).
-/

namespace Bidzr

abbrev Id := Nat

/-- `AuctionStatus` from `src/unnamed/part_008`. -/
inductive AuctionStatus
  | upcoming
  | live
  | paused
  | ended
deriving DecidableEq, Repr

/-- `PlayerAuctionStatus` from `src/unnamed/part_008`. -/
inductive PlayerAuctionStatus
  | pending
  | in_auction
  | sold
  | unsold
deriving DecidableEq, Repr

/-- `BidStatus` from `src/unnamed/part_008`. -/
inductive BidStatus
  | active
  | outbid
  | won
  | expired
deriving DecidableEq, Repr

/-- The fields of an auction document that the embedded operations read or
write (`Auction` model): status, bid increment, countdown duration,
current player on block, creator. -/
structure AuctionDoc where
  createdBy : Id
  status : AuctionStatus
  bidIncrementAmount : Int
  bidTimerSeconds : Int
  currentPlayerOnBlock : Option Id
deriving DecidableEq, Repr

/-- The fields of a player-registration document ("lot") that the embedded
operations read or write: owning auction, status, base price, sale outcome. -/
structure PlayerDoc where
  auction : Id
  status : PlayerAuctionStatus
  basePrice : Int
  soldPrice : Option Int
  soldTo : Option Id
deriving DecidableEq, Repr

/-- The fields of a team document the engine touches: owning auction,
remaining budget and the `acquiredPlayers` array of `(player, soldPrice)`. -/
structure TeamDoc where
  auction : Id
  remainingBudget : Int
  acquiredPlayers : List (Id × Int)
deriving DecidableEq, Repr

/-- A bid document: auction, player, team, amount, status. -/
structure BidDoc where
  auction : Id
  player : Id
  team : Id
  amount : Int
  status : BidStatus
deriving DecidableEq, Repr

/-- A countdown timer entry of `AuctionTimerManager.timers` (keyed by
auction id): remaining seconds and the player the timer was started for. -/
structure TimerDoc where
  timeRemaining : Int
  playerId : Id
deriving DecidableEq, Repr

/-- Socket events broadcast to the auction room, in emission order. -/
inductive Event
  | timerUpdate (auctionId playerId : Id) (timeRemaining : Int)
  | playerOnBlock (playerId : Id) (timeRemaining : Int)
  | bidUpdate (auctionId playerId teamId : Id) (currentBid : Int)
  | teamUpdate (teamId : Id) (remainingBudget : Int) (playerCount : Nat)
  | playerSold (auctionId playerId teamId : Id) (soldPrice : Int)
  | playerUnsold (auctionId playerId : Id)
deriving DecidableEq, Repr

/-- The authoritative state: the four Mongo collections, the timer map of
`AuctionTimerManager`, the next fresh bid id, and the broadcast log. -/
structure State where
  auctions : List (Id × AuctionDoc)
  players : List (Id × PlayerDoc)
  teams : List (Id × TeamDoc)
  bids : List (Id × BidDoc)
  timers : List (Id × TimerDoc)
  nextBidId : Id
  events : List Event
deriving DecidableEq, Repr

/-- First-match association lookup (`findById` / `Map.get`). -/
def lookupKey (k : Id) : List (Id × α) → Option α
  | [] => none
  | (k', v) :: rest => if k' = k then some v else lookupKey k rest

/-- Keyed in-place modification (`document.save()` of a fetched document,
`findByIdAndUpdate`): replaces the value at `k`, a no-op if `k` is absent. -/
def modKey (k : Id) (f : α → α) : List (Id × α) → List (Id × α)
  | [] => []
  | (k', v) :: rest => (if k' = k then (k', f v) else (k', v)) :: modKey k f rest

/-- Keyed removal (`Map.delete`). -/
def delKey (k : Id) (l : List (Id × α)) : List (Id × α) :=
  l.filter (fun e => e.1 ≠ k)

/-- `Bid.findOne({player, status: ACTIVE}).sort({amount: -1})`: the active
bid for `pid` with the greatest amount, earliest first on ties. -/
def highestActiveBid (pid : Id) (l : List (Id × BidDoc)) : Option (Id × BidDoc) :=
  l.foldl
    (fun acc e =>
      if e.2.player = pid ∧ e.2.status = BidStatus.active then
        match acc with
        | none => some e
        | some m => if m.2.amount < e.2.amount then some e else some m
      else acc)
    none

/-! ## Countdown Driver — `timerManager.ts` -/

/-- `AuctionTimerManager.stopTimer`: clear the interval and drop the map
entry; idempotent. -/
def stopTimer (auctionId : Id) (s : State) : State :=
  { s with timers := delKey auctionId s.timers }

/-- `AuctionTimerManager.startTimer`: stop any existing timer for this
auction, install a fresh one for `playerId` with the full duration, and
emit the initial timer state. -/
def startTimer (auctionId playerId : Id) (durationSeconds : Int) (s : State) : State :=
  let s1 := stopTimer auctionId s
  { s1 with
      timers := s1.timers ++ [(auctionId, ⟨durationSeconds, playerId⟩)],
      events := s1.events ++ [Event.timerUpdate auctionId playerId durationSeconds] }

/-- `AuctionTimerManager.resetTimer`: only if a timer exists for the auction
and it was started for the same `playerId`, re-read the auction's
`bidTimerSeconds` and set the remaining time back to it, emitting a timer
update; otherwise (or when the auction lookup fails) do nothing.  (In the
source the auction fetch is an un-awaited promise; its continuation is the
only effect and is applied here directly.) -/
def resetTimer (auctionId playerId : Id) (s : State) : State :=
  match lookupKey auctionId s.timers with
  | none => s
  | some t =>
    if t.playerId = playerId then
      match lookupKey auctionId s.auctions with
      | none => s
      | some a =>
        { s with
            timers := modKey auctionId
              (fun t0 => { t0 with timeRemaining := a.bidTimerSeconds }) s.timers,
            events := s.events ++
              [Event.timerUpdate auctionId playerId a.bidTimerSeconds] }
    else s

/-! ## Lot finalization — `AuctionSocketManager.finalizePlayerBidding` -/

/-- `finalizePlayerBidding(auctionId, playerId)`: look up the player and its
highest active bid.  If one exists: mark it `won`, mark the player `sold`
with `soldPrice`/`soldTo`, debit the winning team's remaining budget and push
onto its `acquiredPlayers` (when the team is found), broadcasting team update
and player-sold; otherwise mark the player `unsold` and broadcast.  Either
way clear the auction's `currentPlayerOnBlock`. -/
def finalizePlayerBidding (auctionId playerId : Id) (s : State) : State :=
  match lookupKey playerId s.players with
  | none => s
  | some _ =>
    match highestActiveBid playerId s.bids with
    | some (bk, b) =>
      let bids1 := modKey bk (fun b0 => { b0 with status := BidStatus.won }) s.bids
      let players1 := modKey playerId
        (fun p0 => { p0 with
            status := PlayerAuctionStatus.sold,
            soldPrice := some b.amount,
            soldTo := some b.team }) s.players
      let (teams1, teamEvs) :=
        match lookupKey b.team s.teams with
        | none => (s.teams, [])
        | some tm =>
          let tm' := { tm with
              remainingBudget := tm.remainingBudget - b.amount,
              acquiredPlayers := tm.acquiredPlayers ++ [(playerId, b.amount)] }
          (modKey b.team (fun _ => tm') s.teams,
           [Event.teamUpdate b.team tm'.remainingBudget tm'.acquiredPlayers.length])
      { s with
          players := players1,
          bids := bids1,
          teams := teams1,
          auctions := modKey auctionId
            (fun a0 => { a0 with currentPlayerOnBlock := none }) s.auctions,
          events := s.events ++ teamEvs ++
            [Event.playerSold auctionId playerId b.team b.amount] }
    | none =>
      { s with
          players := modKey playerId
            (fun p0 => { p0 with status := PlayerAuctionStatus.unsold }) s.players,
          auctions := modKey auctionId
            (fun a0 => { a0 with currentPlayerOnBlock := none }) s.auctions,
          events := s.events ++ [Event.playerUnsold auctionId playerId] }

/-- `AuctionTimerManager.tick`: decrement the remaining time, emit a timer
update, and when it reaches zero stop the timer and fire `onExpire`.  The
`onExpire` closure installed by `handlePutOnBlock` is
`handleTimerExpired(auctionId, playerId)` for the same `playerId` the timer
was started with, i.e. `finalizePlayerBidding auctionId timer.playerId`. -/
def tick (auctionId : Id) (s : State) : State :=
  match lookupKey auctionId s.timers with
  | none => s
  | some t =>
    let remaining := t.timeRemaining - 1
    let s1 :=
      { s with
          timers := modKey auctionId
            (fun t0 => { t0 with timeRemaining := remaining }) s.timers,
          events := s.events ++ [Event.timerUpdate auctionId t.playerId remaining] }
    if remaining ≤ 0 then
      finalizePlayerBidding auctionId t.playerId (stopTimer auctionId s1)
    else s1

/-- `n` one-second ticks for one auction. -/
def runTicks (auctionId : Id) : Nat → State → State
  | 0, s => s
  | n + 1, s => runTicks auctionId n (tick auctionId s)

/-! ## Bid Arbiter — `AuctionSocketManager.handlePlaceBid` -/

/-- The typed rejection reasons of `handlePlaceBid` (each an `ERROR` emit
to the submitting socket only).  `belowMinimum` carries the minimum the
error message reports. -/
inductive BidError
  | auctionNotLive
  | staleLot
  | teamNotFound
  | belowMinimum (minimumBid : Int)
  | insufficientBudget
deriving DecidableEq, Repr

inductive BidResult
  | accepted
  | rejected (e : BidError)
deriving DecidableEq, Repr

/-- part_007 lines 228–230: `minimumBid = currentHighestBid ?
currentHighestBid.amount + auction.bidIncrementAmount : player.basePrice`. -/
def minimumBid (playerId : Id) (a : AuctionDoc) (p : PlayerDoc)
    (bids : List (Id × BidDoc)) : Int :=
  match highestActiveBid playerId bids with
  | some (_, hb) => hb.amount + a.bidIncrementAmount
  | none => p.basePrice

/-- The validation phase of `handlePlaceBid` (part_007 lines 201–243): all
reads, no writes.  Checked in source order: auction exists and is live,
player exists and is `in_auction`, team exists, amount at least the
minimum (highest active bid + increment, else base price), team budget at
least the amount. -/
def placeBidCheck (auctionId teamId playerId : Id) (amount : Int) (s : State) :
    BidResult :=
  match lookupKey auctionId s.auctions with
  | none => BidResult.rejected BidError.auctionNotLive
  | some a =>
    if a.status ≠ AuctionStatus.live then BidResult.rejected BidError.auctionNotLive
    else
      match lookupKey playerId s.players with
      | none => BidResult.rejected BidError.staleLot
      | some p =>
        if p.status ≠ PlayerAuctionStatus.in_auction then
          BidResult.rejected BidError.staleLot
        else
          match lookupKey teamId s.teams with
          | none => BidResult.rejected BidError.teamNotFound
          | some tm =>
            if amount < minimumBid playerId a p s.bids then
              BidResult.rejected (BidError.belowMinimum (minimumBid playerId a p s.bids))
            else if tm.remainingBudget < amount then
              BidResult.rejected BidError.insufficientBudget
            else BidResult.accepted

/-- The write phase of `handlePlaceBid` (part_007 lines 245–282), executed
only after every check passed: save a fresh `active` bid, `updateMany` every
other active bid for the player to `outbid`, reset the countdown, and
broadcast the bid update. -/
def placeBidCommit (auctionId teamId playerId : Id) (amount : Int) (s : State) :
    State :=
  let k := s.nextBidId
  let bids1 := s.bids ++
    [(k, { auction := auctionId, player := playerId, team := teamId,
           amount := amount, status := BidStatus.active })]
  let bids2 := bids1.map (fun e =>
    if e.1 ≠ k ∧ e.2.player = playerId ∧ e.2.status = BidStatus.active then
      (e.1, { e.2 with status := BidStatus.outbid })
    else e)
  let s1 := { s with bids := bids2, nextBidId := k + 1 }
  let s2 := resetTimer auctionId playerId s1
  { s2 with events := s2.events ++ [Event.bidUpdate auctionId playerId teamId amount] }

/-- `handlePlaceBid` as one serialized operation: every rejection path in
the source returns before any write, so the atomic semantics is
check-then-commit. -/
def handlePlaceBid (auctionId teamId playerId : Id) (amount : Int) (s : State) :
    BidResult × State :=
  match placeBidCheck auctionId teamId playerId amount s with
  | BidResult.accepted =>
    (BidResult.accepted, placeBidCommit auctionId teamId playerId amount s)
  | r => (r, s)

/-- Two bid submissions racing on the same lot, interleaved at the `await`
boundary the source exposes between its last read (`Bid.findOne`, the
minimum/budget validation) and its first write (`bid.save()`): the second
submission is validated against the state before the first one committed.
Nothing in the source serializes the two handler invocations. -/
def racedPlaceBids (auctionId tid1 tid2 playerId : Id) (amt1 amt2 : Int)
    (s : State) : BidResult × BidResult × State :=
  let r1 := placeBidCheck auctionId tid1 playerId amt1 s
  let r2 := placeBidCheck auctionId tid2 playerId amt2 s
  let s1 := if r1 = BidResult.accepted
    then placeBidCommit auctionId tid1 playerId amt1 s else s
  let s2 := if r2 = BidResult.accepted
    then placeBidCommit auctionId tid2 playerId amt2 s1 else s1
  (r1, r2, s2)

/-! ## Put on block -/

inductive PutResult
  | playerNotFound
  | notPending
  | auctionNotFound
  | auctionNotLive
  | ok
deriving DecidableEq, Repr

/-- Socket `AuctionSocketManager.handlePutOnBlock` (part_007 lines
291–351): look up the player, require its auction to be live, set the
player `in_auction`, point `currentPlayerOnBlock` at it, start the
countdown, broadcast.  There is no check that the player is `pending` and
no check that another player is already on block. -/
def handlePutOnBlock (playerId : Id) (s : State) : PutResult × State :=
  match lookupKey playerId s.players with
  | none => (PutResult.playerNotFound, s)
  | some p =>
    match lookupKey p.auction s.auctions with
    | none => (PutResult.auctionNotLive, s)
    | some a =>
      if a.status ≠ AuctionStatus.live then (PutResult.auctionNotLive, s)
      else
        let s1 :=
          { s with
              players := modKey playerId
                (fun p0 => { p0 with status := PlayerAuctionStatus.in_auction })
                s.players,
              auctions := modKey p.auction
                (fun a0 => { a0 with currentPlayerOnBlock := some playerId })
                s.auctions }
        let s2 := startTimer p.auction playerId a.bidTimerSeconds s1
        (PutResult.ok,
         { s2 with events := s2.events ++
            [Event.playerOnBlock playerId a.bidTimerSeconds] })

/-- REST `putPlayerOnBlock` (part_006 lines 343–392): additionally requires
the player to be `pending`, but likewise has no already-on-block check and
does not start a timer. -/
def putPlayerOnBlock (playerId : Id) (s : State) : PutResult × State :=
  match lookupKey playerId s.players with
  | none => (PutResult.playerNotFound, s)
  | some p =>
    if p.status ≠ PlayerAuctionStatus.pending then (PutResult.notPending, s)
    else
      match lookupKey p.auction s.auctions with
      | none => (PutResult.auctionNotFound, s)
      | some a =>
        if a.status ≠ AuctionStatus.live then (PutResult.auctionNotLive, s)
        else
          (PutResult.ok,
           { s with
               players := modKey playerId
                 (fun p0 => { p0 with status := PlayerAuctionStatus.in_auction })
                 s.players,
               auctions := modKey p.auction
                 (fun a0 => { a0 with currentPlayerOnBlock := some playerId })
                 s.auctions })

/-! ## Admin end / auction end -/

/-- Socket `handleEndPlayerBidding` (admin "end bidding now"): stop the
countdown, then finalize. -/
def handleEndPlayerBidding (auctionId playerId : Id) (s : State) : State :=
  finalizePlayerBidding auctionId playerId (stopTimer auctionId s)

inductive EndResult
  | notFound
  | forbidden
  | alreadyEnded
  | ok
deriving DecidableEq, Repr

/-- REST `endAuction` (auctionController.ts lines 441–477): only the
creator may end it, only from a non-`ended` status; sets the status to
`ended` and clears `currentPlayerOnBlock`.  It never touches the timer
manager and never changes the on-block player's own status. -/
def endAuction (userId auctionId : Id) (s : State) : EndResult × State :=
  match lookupKey auctionId s.auctions with
  | none => (EndResult.notFound, s)
  | some a =>
    if a.createdBy ≠ userId then (EndResult.forbidden, s)
    else if a.status = AuctionStatus.ended then (EndResult.alreadyEnded, s)
    else
      let a' := { a with
        status := AuctionStatus.ended,
        currentPlayerOnBlock := none }
      (EndResult.ok, { s with auctions := modKey auctionId (fun _ => a') s.auctions })

/-! ## Concrete fixtures

A minimal live auction used by the concrete executions below: auction 1
(creator user 4, live, bid increment 10, countdown 3 seconds, nothing on
block), one pending player 2 with base price 100, two teams 3 and 5 with
budgets 500 and 1000. -/

def sampleAuction : AuctionDoc :=
  { createdBy := 4, status := AuctionStatus.live, bidIncrementAmount := 10,
    bidTimerSeconds := 3, currentPlayerOnBlock := none }

def samplePlayer : PlayerDoc :=
  { auction := 1, status := PlayerAuctionStatus.pending, basePrice := 100,
    soldPrice := none, soldTo := none }

def sampleState : State :=
  { auctions := [(1, sampleAuction)],
    players := [(2, samplePlayer)],
    teams := [(3, { auction := 1, remainingBudget := 500, acquiredPlayers := [] }),
              (5, { auction := 1, remainingBudget := 1000, acquiredPlayers := [] })],
    bids := [], timers := [], nextBidId := 20, events := [] }

/-- `sampleState` after the admin puts player 2 on the block: player 2 is
`in_auction`, auction 1 points at it, the 3-second countdown is running. -/
def onBlockState : State := (handlePutOnBlock 2 sampleState).2

/-- `onBlockState` after team 3's accepted opening bid of 100. -/
def afterBidState : State := (handlePlaceBid 1 3 2 100 onBlockState).2

/-- `afterBidState` after the countdown expires (3 ticks): the lot is
finalized sold to team 3 for 100. -/
def soldState : State := runTicks 1 3 afterBidState

/-- `sampleState` with a second pending player 6 (base price 150). -/
def twoLotState : State :=
  { sampleState with
      players := [(2, samplePlayer),
                  (6, { auction := 1, status := PlayerAuctionStatus.pending,
                        basePrice := 150, soldPrice := none, soldTo := none })] }

/-- `twoLotState` after the admin puts player 2 on the block and then —
with no already-on-block guard stopping it — player 6 as well: the
session's current lot is 6, but player 2 is still `in_auction`. -/
def supersededState : State :=
  (handlePutOnBlock 6 (handlePutOnBlock 2 twoLotState).2).2

/-- `sampleState` with auction 1 paused. -/
def pausedState : State :=
  { sampleState with
      auctions := [(1, { sampleAuction with status := AuctionStatus.paused })] }

/-! ## Association-list lemmas -/

theorem lookupKey_modKey_self (k : Id) (f : α → α) (l : List (Id × α)) :
    lookupKey k (modKey k f l) = (lookupKey k l).map f := by
  induction l with
  | nil => rfl
  | cons e rest ih =>
    obtain ⟨k1, v⟩ := e
    rw [modKey]
    by_cases h : k1 = k
    · rw [if_pos h]
      simp [lookupKey, h]
    · rw [if_neg h]
      simp [lookupKey, h, ih]

theorem lookupKey_modKey_ne (k k' : Id) (f : α → α) (l : List (Id × α))
    (h : k' ≠ k) : lookupKey k' (modKey k f l) = lookupKey k' l := by
  induction l with
  | nil => rfl
  | cons e rest ih =>
    obtain ⟨k1, v⟩ := e
    rw [modKey]
    by_cases he : k1 = k
    · rw [if_pos he]
      have : k1 ≠ k' := by rw [he]; exact Ne.symm h
      simp [lookupKey, this, ih]
    · rw [if_neg he]
      by_cases he' : k1 = k'
      · simp [lookupKey, he', ih]
      · simp [lookupKey, he', ih]

/-!
## Theorems for the claims
-/

/-- C1.  The claim states that two bids racing for the same on-block lot
resolve with exactly one accepted, the other rejected `BelowMinimum` or
superseded, never both accepted.  The code refutes this: `handlePlaceBid`
is an unserialized async handler, so a second submission can run its whole
validation (reads) before the first's writes land.  In that interleaving,
two equal opening bids of 100 from teams 3 and 5 on lot 2 are BOTH
accepted — both success broadcasts are emitted and both bid records are
created (team 3's is then flipped to `outbid` by team 5's `updateMany`,
after team 3 was already told and shown it was accepted).  Had the two
submissions been serialized as the claim demands, the second would have
been rejected `BelowMinimum 110`, as the last conjunct shows. -/
theorem C1_race_both_accepted :
    (racedPlaceBids 1 3 5 2 100 100 onBlockState).1 = BidResult.accepted ∧
    (racedPlaceBids 1 3 5 2 100 100 onBlockState).2.1 = BidResult.accepted ∧
    Event.bidUpdate 1 2 3 100 ∈ (racedPlaceBids 1 3 5 2 100 100 onBlockState).2.2.events ∧
    Event.bidUpdate 1 2 5 100 ∈ (racedPlaceBids 1 3 5 2 100 100 onBlockState).2.2.events ∧
    lookupKey 20 (racedPlaceBids 1 3 5 2 100 100 onBlockState).2.2.bids =
      some { auction := 1, player := 2, team := 3, amount := 100,
             status := BidStatus.outbid } ∧
    lookupKey 21 (racedPlaceBids 1 3 5 2 100 100 onBlockState).2.2.bids =
      some { auction := 1, player := 2, team := 5, amount := 100,
             status := BidStatus.active } ∧
    (handlePlaceBid 1 5 2 100 afterBidState).1 =
      BidResult.rejected (BidError.belowMinimum 110) := by
  decide

/-- C2.  The claim states finalize is idempotent: a second finalize of a
sold lot is a no-op, never double-debiting and never changing the lot's
sold status.  The code refutes half of it: the first finalize sells lot 2
to team 3 for 100 (budget 500 → 400, bid 20 `won`), but a second finalize
(here the admin's "end bidding" arriving after the countdown-expiry
finalize) finds no `active` bid — the winner is `won` — and takes the
unsold branch, overwriting the lot's status from `sold` to `unsold`.  The
budget is indeed not debited twice (still 400). -/
theorem C2_second_finalize_not_noop :
    lookupKey 2 soldState.players =
      some { auction := 1, status := PlayerAuctionStatus.sold, basePrice := 100,
             soldPrice := some 100, soldTo := some 3 } ∧
    lookupKey 3 soldState.teams =
      some { auction := 1, remainingBudget := 400, acquiredPlayers := [(2, 100)] } ∧
    lookupKey 2 (handleEndPlayerBidding 1 2 soldState).players =
      some { auction := 1, status := PlayerAuctionStatus.unsold, basePrice := 100,
             soldPrice := some 100, soldTo := some 3 } ∧
    lookupKey 3 (handleEndPlayerBidding 1 2 soldState).teams =
      some { auction := 1, remainingBudget := 400, acquiredPlayers := [(2, 100)] } := by
  decide

/-- C3.  The claim states `endAuction` force-stops any running countdown
(no further tick emitted), and leaves the in-progress on-block lot
`pending`, never auto-sold or auto-unsold.  The code refutes it: ending
live auction 1 while lot 2 is on block succeeds and sets the status to
`ended` with the current-lot reference cleared, but the countdown entry is
untouched (`endAuction` never calls `stopTimer`), the lot itself stays
`in_auction` (not `pending`), the very next tick still emits a timer
update for the already-ended auction, and when the countdown runs out the
lot is automatically finalized `unsold`. -/
theorem C3_endAuction_leaves_timer_running :
    (endAuction 4 1 onBlockState).1 = EndResult.ok ∧
    lookupKey 1 (endAuction 4 1 onBlockState).2.auctions =
      some { createdBy := 4, status := AuctionStatus.ended,
             bidIncrementAmount := 10, bidTimerSeconds := 3,
             currentPlayerOnBlock := none } ∧
    lookupKey 2 (endAuction 4 1 onBlockState).2.players =
      some { auction := 1, status := PlayerAuctionStatus.in_auction,
             basePrice := 100, soldPrice := none, soldTo := none } ∧
    lookupKey 1 (endAuction 4 1 onBlockState).2.timers =
      some { timeRemaining := 3, playerId := 2 } ∧
    (tick 1 (endAuction 4 1 onBlockState).2).events =
      (endAuction 4 1 onBlockState).2.events ++ [Event.timerUpdate 1 2 2] ∧
    lookupKey 2 (runTicks 1 3 (endAuction 4 1 onBlockState).2).players =
      some { auction := 1, status := PlayerAuctionStatus.unsold,
             basePrice := 100, soldPrice := none, soldTo := none } := by
  decide

/-- C4.  For a bid submission on the current on-block lot of a live
auction (auction live, lot `in_auction`, submitting team present), the
minimum acceptable amount is the current highest active bid plus the
auction's increment when such a bid exists, and the lot's base price
otherwise; an amount strictly below this minimum is rejected as
below-minimum (carrying that exact minimum) with the state unchanged, and
an opening bid of exactly the base price on a lot with no prior active
bid is accepted (given sufficient budget). -/
theorem C4_minimum_bid_rule
    (aid tid pid : Id) (amount : Int) (s : State)
    (a : AuctionDoc) (p : PlayerDoc) (tm : TeamDoc)
    (ha : lookupKey aid s.auctions = some a)
    (hlive : a.status = AuctionStatus.live)
    (hp : lookupKey pid s.players = some p)
    (hpstat : p.status = PlayerAuctionStatus.in_auction)
    (ht : lookupKey tid s.teams = some tm) :
    (∀ bk hb, highestActiveBid pid s.bids = some (bk, hb) →
      amount < hb.amount + a.bidIncrementAmount →
      handlePlaceBid aid tid pid amount s =
        (BidResult.rejected (BidError.belowMinimum (hb.amount + a.bidIncrementAmount)), s)) ∧
    (highestActiveBid pid s.bids = none → amount < p.basePrice →
      handlePlaceBid aid tid pid amount s =
        (BidResult.rejected (BidError.belowMinimum p.basePrice), s)) ∧
    (highestActiveBid pid s.bids = none → amount = p.basePrice →
      amount ≤ tm.remainingBudget →
      (handlePlaceBid aid tid pid amount s).1 = BidResult.accepted) := by
  refine ⟨?_, ?_, ?_⟩
  · intro bk hb hhb hlt
    simp [handlePlaceBid, placeBidCheck, minimumBid, ha, hlive, hp, hpstat, ht, hhb, hlt]
  · intro hhb hlt
    simp [handlePlaceBid, placeBidCheck, minimumBid, ha, hlive, hp, hpstat, ht, hhb, hlt]
  · intro hhb heq hbud
    subst heq
    simp [handlePlaceBid, placeBidCheck, minimumBid, ha, hlive, hp, hpstat, ht, hhb,
      not_lt.mpr hbud]

/-- Witness for C4 at a concrete input: on `onBlockState` (fresh lot 2,
base 100, no bids) a bid of 99 by team 3 is rejected below-minimum 100
with no state change, and a bid of exactly 100 is accepted. -/
theorem C4_minimum_bid_rule_witness :
    handlePlaceBid 1 3 2 99 onBlockState =
      (BidResult.rejected (BidError.belowMinimum 100), onBlockState) ∧
    (handlePlaceBid 1 3 2 100 onBlockState).1 = BidResult.accepted := by
  constructor
  · exact (C4_minimum_bid_rule 1 3 2 99 onBlockState
      { createdBy := 4, status := AuctionStatus.live, bidIncrementAmount := 10,
        bidTimerSeconds := 3, currentPlayerOnBlock := some 2 }
      { auction := 1, status := PlayerAuctionStatus.in_auction, basePrice := 100,
        soldPrice := none, soldTo := none }
      { auction := 1, remainingBudget := 500, acquiredPlayers := [] }
      (by decide) rfl (by decide) rfl (by decide)).2.1 (by decide) (by decide)
  · exact (C4_minimum_bid_rule 1 3 2 100 onBlockState
      { createdBy := 4, status := AuctionStatus.live, bidIncrementAmount := 10,
        bidTimerSeconds := 3, currentPlayerOnBlock := some 2 }
      { auction := 1, status := PlayerAuctionStatus.in_auction, basePrice := 100,
        soldPrice := none, soldTo := none }
      { auction := 1, remainingBudget := 500, acquiredPlayers := [] }
      (by decide) rfl (by decide) rfl (by decide)).2.2 (by decide) (by decide) (by decide)

/-- C8.  A bid whose amount exceeds the submitting team's remaining budget
— with every earlier guard passing: live auction, lot on the block, team
present, amount at least the minimum — is rejected as insufficient-budget
and the returned state is exactly the input state: no bid record, no
superseded bid, no timer reset, no broadcast. -/
theorem C8_insufficient_budget_rejected_no_change
    (aid tid pid : Id) (amount : Int) (s : State)
    (a : AuctionDoc) (p : PlayerDoc) (tm : TeamDoc)
    (ha : lookupKey aid s.auctions = some a)
    (hlive : a.status = AuctionStatus.live)
    (hp : lookupKey pid s.players = some p)
    (hpstat : p.status = PlayerAuctionStatus.in_auction)
    (ht : lookupKey tid s.teams = some tm)
    (hmin : minimumBid pid a p s.bids ≤ amount)
    (hbud : tm.remainingBudget < amount) :
    handlePlaceBid aid tid pid amount s =
      (BidResult.rejected BidError.insufficientBudget, s) := by
  simp [handlePlaceBid, placeBidCheck, ha, hlive, hp, hpstat, ht,
    not_lt.mpr hmin, hbud]

/-- Witness for C8 at a concrete input: on `onBlockState` a bid of 600 by
team 3 (budget 500) is rejected insufficient-budget and the state is
untouched. -/
theorem C8_insufficient_budget_witness :
    handlePlaceBid 1 3 2 600 onBlockState =
      (BidResult.rejected BidError.insufficientBudget, onBlockState) :=
  C8_insufficient_budget_rejected_no_change 1 3 2 600 onBlockState
    { createdBy := 4, status := AuctionStatus.live, bidIncrementAmount := 10,
      bidTimerSeconds := 3, currentPlayerOnBlock := some 2 }
    { auction := 1, status := PlayerAuctionStatus.in_auction, basePrice := 100,
      soldPrice := none, soldTo := none }
    { auction := 1, remainingBudget := 500, acquiredPlayers := [] }
    (by decide) rfl (by decide) rfl (by decide) (by decide) (by decide)

/-- C9.  `resetTimer(auctionId, playerId)` sets the remaining time back to
the auction's full configured duration (re-emitting a timer update) only
when the running timer for that auction was started for the same player;
when there is no timer, or the timer's current player differs from
`playerId`, the whole state — in particular the timer — is unchanged. -/
theorem C9_resetTimer_noop_for_stale_lot (aid pid : Id) (s : State) :
    (lookupKey aid s.timers = none → resetTimer aid pid s = s) ∧
    (∀ t, lookupKey aid s.timers = some t → t.playerId ≠ pid →
      resetTimer aid pid s = s) ∧
    (∀ t a, lookupKey aid s.timers = some t → t.playerId = pid →
      lookupKey aid s.auctions = some a →
      lookupKey aid (resetTimer aid pid s).timers =
        some { t with timeRemaining := a.bidTimerSeconds } ∧
      (resetTimer aid pid s).events =
        s.events ++ [Event.timerUpdate aid pid a.bidTimerSeconds] ∧
      (resetTimer aid pid s).auctions = s.auctions ∧
      (resetTimer aid pid s).players = s.players ∧
      (resetTimer aid pid s).teams = s.teams ∧
      (resetTimer aid pid s).bids = s.bids) := by
  refine ⟨?_, ?_, ?_⟩
  · intro h
    simp [resetTimer, h]
  · intro t ht hne
    simp [resetTimer, ht, hne]
  · intro t a ht hpl ha
    simp [resetTimer, ht, hpl, ha, lookupKey_modKey_self]

/-- Witness for C9 at concrete inputs: on `onBlockState` (timer running
for player 2 with 3 seconds) a reset aimed at stale player 9 changes
nothing, and a reset for player 2 restores the full 3-second duration. -/
theorem C9_resetTimer_witness :
    resetTimer 1 9 onBlockState = onBlockState ∧
    lookupKey 1 (resetTimer 1 2 onBlockState).timers =
      some { timeRemaining := 3, playerId := 2 } := by
  constructor
  · exact (C9_resetTimer_noop_for_stale_lot 1 9 onBlockState).2.1
      { timeRemaining := 3, playerId := 2 } (by decide) (by decide)
  · exact ((C9_resetTimer_noop_for_stale_lot 1 2 onBlockState).2.2
      { timeRemaining := 3, playerId := 2 }
      { createdBy := 4, status := AuctionStatus.live, bidIncrementAmount := 10,
        bidTimerSeconds := 3, currentPlayerOnBlock := some 2 }
      (by decide) rfl (by decide)).1

/-- C6 counterexample.  The claim states `putOnBlock` fails with
`LotAlreadyOnBlock` (changing no state) when another lot is already on
block.  Concretely: putting pending player 2 of live auction 1 on the
block succeeds and makes it the current lot; a subsequent
`putPlayerOnBlock` for pending player 6 nevertheless also succeeds — no
`LotAlreadyOnBlock` error exists in the code — leaving BOTH players
`in_auction` and the current-lot reference silently overwritten to 6. -/
theorem C6_counterexample :
    (putPlayerOnBlock 2 twoLotState).1 = PutResult.ok ∧
    lookupKey 1 (putPlayerOnBlock 2 twoLotState).2.auctions =
      some { createdBy := 4, status := AuctionStatus.live,
             bidIncrementAmount := 10, bidTimerSeconds := 3,
             currentPlayerOnBlock := some 2 } ∧
    (putPlayerOnBlock 6 (putPlayerOnBlock 2 twoLotState).2).1 = PutResult.ok ∧
    lookupKey 2 (putPlayerOnBlock 6 (putPlayerOnBlock 2 twoLotState).2).2.players =
      some { auction := 1, status := PlayerAuctionStatus.in_auction,
             basePrice := 100, soldPrice := none, soldTo := none } ∧
    lookupKey 6 (putPlayerOnBlock 6 (putPlayerOnBlock 2 twoLotState).2).2.players =
      some { auction := 1, status := PlayerAuctionStatus.in_auction,
             basePrice := 150, soldPrice := none, soldTo := none } ∧
    lookupKey 1 (putPlayerOnBlock 6 (putPlayerOnBlock 2 twoLotState).2).2.auctions =
      some { createdBy := 4, status := AuctionStatus.live,
             bidIncrementAmount := 10, bidTimerSeconds := 3,
             currentPlayerOnBlock := some 6 } := by
  decide

/-- C6 as amended.  REST `putPlayerOnBlock` fails with `notPending` when
the lot's status is not `pending` and with `auctionNotLive` when the
session is not live, in both cases changing no state; when the lot is
pending and the session live it succeeds — unconditionally, with no
`LotAlreadyOnBlock` guard, regardless of the session's current-lot
reference — setting the lot `in_auction` and repointing the session's
current-lot reference at it. -/
theorem C6_putOnBlock_guards
    (pid : Id) (s : State) (p : PlayerDoc) (a : AuctionDoc)
    (hp : lookupKey pid s.players = some p)
    (ha : lookupKey p.auction s.auctions = some a) :
    (p.status ≠ PlayerAuctionStatus.pending →
      putPlayerOnBlock pid s = (PutResult.notPending, s)) ∧
    (p.status = PlayerAuctionStatus.pending → a.status ≠ AuctionStatus.live →
      putPlayerOnBlock pid s = (PutResult.auctionNotLive, s)) ∧
    (p.status = PlayerAuctionStatus.pending → a.status = AuctionStatus.live →
      (putPlayerOnBlock pid s).1 = PutResult.ok ∧
      lookupKey pid (putPlayerOnBlock pid s).2.players =
        some { p with status := PlayerAuctionStatus.in_auction } ∧
      lookupKey p.auction (putPlayerOnBlock pid s).2.auctions =
        some { a with currentPlayerOnBlock := some pid }) := by
  refine ⟨?_, ?_, ?_⟩
  · intro hstat
    simp [putPlayerOnBlock, hp, hstat]
  · intro hstat hlive
    simp [putPlayerOnBlock, hp, hstat, ha, hlive]
  · intro hstat hlive
    simp [putPlayerOnBlock, hp, hstat, ha, hlive, lookupKey_modKey_self]

/-- Witness for C6-as-amended at concrete inputs: a put for the already
on-block player 2 fails `notPending` with no state change, a put while the
auction is paused fails `auctionNotLive` with no state change, and a put
for pending player 2 of the live sample auction succeeds. -/
theorem C6_putOnBlock_guards_witness :
    putPlayerOnBlock 2 onBlockState = (PutResult.notPending, onBlockState) ∧
    putPlayerOnBlock 2 pausedState = (PutResult.auctionNotLive, pausedState) ∧
    (putPlayerOnBlock 2 sampleState).1 = PutResult.ok := by
  refine ⟨?_, ?_, ?_⟩
  · exact (C6_putOnBlock_guards 2 onBlockState
      { auction := 1, status := PlayerAuctionStatus.in_auction, basePrice := 100,
        soldPrice := none, soldTo := none }
      { createdBy := 4, status := AuctionStatus.live, bidIncrementAmount := 10,
        bidTimerSeconds := 3, currentPlayerOnBlock := some 2 }
      (by decide) (by decide)).1 (by decide)
  · exact (C6_putOnBlock_guards 2 pausedState
      { auction := 1, status := PlayerAuctionStatus.pending, basePrice := 100,
        soldPrice := none, soldTo := none }
      { createdBy := 4, status := AuctionStatus.paused, bidIncrementAmount := 10,
        bidTimerSeconds := 3, currentPlayerOnBlock := none }
      (by decide) (by decide)).2.1 rfl (by decide)
  · exact ((C6_putOnBlock_guards 2 sampleState
      { auction := 1, status := PlayerAuctionStatus.pending, basePrice := 100,
        soldPrice := none, soldTo := none }
      { createdBy := 4, status := AuctionStatus.live, bidIncrementAmount := 10,
        bidTimerSeconds := 3, currentPlayerOnBlock := none }
      (by decide) (by decide)).2.2 rfl rfl).1

/-- C7 counterexample.  The claim states every bid whose lot is not the
session's current on-block lot is rejected `StaleLot` with no bid record
created.  Concretely in `supersededState` (reached from `twoLotState` by
two consecutive put-on-block commands) the current lot is 6, yet a bid on
lot 2 — no longer the current lot, but still `in_auction` — is accepted
and a bid record is created. -/
theorem C7_counterexample :
    lookupKey 1 supersededState.auctions =
      some { createdBy := 4, status := AuctionStatus.live,
             bidIncrementAmount := 10, bidTimerSeconds := 3,
             currentPlayerOnBlock := some 6 } ∧
    (handlePlaceBid 1 3 2 100 supersededState).1 = BidResult.accepted ∧
    lookupKey 20 (handlePlaceBid 1 3 2 100 supersededState).2.bids =
      some { auction := 1, player := 2, team := 3, amount := 100,
             status := BidStatus.active } := by
  decide

/-- C7 as amended.  A bid on a live auction is rejected as stale exactly
when the submitted lot id does not refer to a lot whose status is
`in_auction`: a missing lot or one whose status is `pending`, `sold` or
`unsold` (in particular any lot that already closed) is rejected with no
state change, while a lot still marked `in_auction` is never rejected as
stale — the code checks the lot's own status, not the session's
current-on-block reference. -/
theorem C7_staleLot_iff_lot_not_in_auction
    (aid tid pid : Id) (amount : Int) (s : State) (a : AuctionDoc)
    (ha : lookupKey aid s.auctions = some a)
    (hlive : a.status = AuctionStatus.live) :
    (lookupKey pid s.players = none →
      handlePlaceBid aid tid pid amount s =
        (BidResult.rejected BidError.staleLot, s)) ∧
    (∀ p, lookupKey pid s.players = some p →
      p.status ≠ PlayerAuctionStatus.in_auction →
      handlePlaceBid aid tid pid amount s =
        (BidResult.rejected BidError.staleLot, s)) ∧
    (∀ p, lookupKey pid s.players = some p →
      p.status = PlayerAuctionStatus.in_auction →
      (handlePlaceBid aid tid pid amount s).1 ≠
        BidResult.rejected BidError.staleLot) := by
  refine ⟨?_, ?_, ?_⟩
  · intro hp
    simp [handlePlaceBid, placeBidCheck, ha, hlive, hp]
  · intro p hp hstat
    simp [handlePlaceBid, placeBidCheck, ha, hlive, hp, hstat]
  · intro p hp hstat
    cases hteam : lookupKey tid s.teams with
    | none => simp [handlePlaceBid, placeBidCheck, ha, hlive, hp, hstat, hteam]
    | some tm =>
      by_cases hlt : amount < minimumBid pid a p s.bids
      · simp [handlePlaceBid, placeBidCheck, ha, hlive, hp, hstat, hteam, hlt]
      · by_cases hbud : tm.remainingBudget < amount
        · simp [handlePlaceBid, placeBidCheck, ha, hlive, hp, hstat, hteam,
            hlt, hbud]
        · simp [handlePlaceBid, placeBidCheck, ha, hlive, hp, hstat, hteam,
            hlt, hbud]

/-- Witness for C7-as-amended at concrete inputs: in `soldState` lot 2 has
closed (`sold`), and a late bid on it is rejected stale with no state
change; in `onBlockState` lot 2 is `in_auction` and a bid on it is not
rejected stale. -/
theorem C7_staleLot_witness :
    handlePlaceBid 1 5 2 300 soldState =
      (BidResult.rejected BidError.staleLot, soldState) ∧
    (handlePlaceBid 1 5 2 300 onBlockState).1 ≠
      BidResult.rejected BidError.staleLot := by
  constructor
  · exact (C7_staleLot_iff_lot_not_in_auction 1 5 2 300 soldState
      { createdBy := 4, status := AuctionStatus.live, bidIncrementAmount := 10,
        bidTimerSeconds := 3, currentPlayerOnBlock := none }
      (by decide) rfl).2.1
      { auction := 1, status := PlayerAuctionStatus.sold, basePrice := 100,
        soldPrice := some 100, soldTo := some 3 }
      (by decide) (by decide)
  · exact (C7_staleLot_iff_lot_not_in_auction 1 5 2 300 onBlockState
      { createdBy := 4, status := AuctionStatus.live, bidIncrementAmount := 10,
        bidTimerSeconds := 3, currentPlayerOnBlock := some 2 }
      (by decide) rfl).2.2
      { auction := 1, status := PlayerAuctionStatus.in_auction, basePrice := 100,
        soldPrice := none, soldTo := none }
      (by decide) rfl

/-- A live auction (increment `inc`) whose lot 2 is on the block with
base price `B`, where team 3 (budget `R`) already holds the current high
bid of `A` (bid record 10, `active`). -/
def selfOutbidState (inc B A R : Int) : State :=
  { auctions := [(1, { createdBy := 4, status := AuctionStatus.live,
                       bidIncrementAmount := inc, bidTimerSeconds := 3,
                       currentPlayerOnBlock := some 2 })],
    players := [(2, { auction := 1, status := PlayerAuctionStatus.in_auction,
                      basePrice := B, soldPrice := none, soldTo := none })],
    teams := [(3, { auction := 1, remainingBudget := R, acquiredPlayers := [] })],
    bids := [(10, { auction := 1, player := 2, team := 3, amount := A,
                    status := BidStatus.active })],
    timers := [(1, { timeRemaining := 2, playerId := 2 })],
    nextBidId := 11,
    events := [] }

/-- C10.  A team that already holds the current high bid may outbid
itself: the arbiter never compares the submitting team with the current
high bidder, so a second bid from the same team 3 of any amount `amt` with
`A + inc ≤ amt ≤ R` is accepted, the team's own previous active bid 10 is
marked outbid (superseded), the new bid 11 becomes the active high bid,
and the price the team pays at finalization rises from `A` to `amt`. -/
theorem C10_self_outbid (inc B A R amt : Int)
    (hinc : 0 < inc) (hmin : A + inc ≤ amt) (hbud : amt ≤ R) :
    (handlePlaceBid 1 3 2 amt (selfOutbidState inc B A R)).1 =
      BidResult.accepted ∧
    lookupKey 10 (handlePlaceBid 1 3 2 amt (selfOutbidState inc B A R)).2.bids =
      some { auction := 1, player := 2, team := 3, amount := A,
             status := BidStatus.outbid } ∧
    lookupKey 11 (handlePlaceBid 1 3 2 amt (selfOutbidState inc B A R)).2.bids =
      some { auction := 1, player := 2, team := 3, amount := amt,
             status := BidStatus.active } ∧
    highestActiveBid 2 (handlePlaceBid 1 3 2 amt (selfOutbidState inc B A R)).2.bids =
      some (11, { auction := 1, player := 2, team := 3, amount := amt,
                  status := BidStatus.active }) ∧
    A < amt ∧
    lookupKey 2 (finalizePlayerBidding 1 2
        (handlePlaceBid 1 3 2 amt (selfOutbidState inc B A R)).2).players =
      some { auction := 1, status := PlayerAuctionStatus.sold, basePrice := B,
             soldPrice := some amt, soldTo := some 3 } ∧
    lookupKey 3 (finalizePlayerBidding 1 2
        (handlePlaceBid 1 3 2 amt (selfOutbidState inc B A R)).2).teams =
      some { auction := 1, remainingBudget := R - amt,
             acquiredPlayers := [(2, amt)] } := by
  have h1 : ¬ amt < A + inc := not_lt.mpr hmin
  have h2 : ¬ R < amt := not_lt.mpr hbud
  refine ⟨?_, ?_, ?_, ?_, by linarith, ?_, ?_⟩ <;>
    simp [selfOutbidState, handlePlaceBid, placeBidCheck, placeBidCommit,
      minimumBid, highestActiveBid, resetTimer, finalizePlayerBidding,
      lookupKey, modKey, h1, h2]

/-- Witness for C10 at a concrete input: with increment 10, base 100, own
high bid 100 and budget 1000, team 3's second bid of 110 is accepted, its
first bid is outbid, and finalization sells lot 2 to team 3 for 110. -/
theorem C10_self_outbid_witness :
    (handlePlaceBid 1 3 2 110 (selfOutbidState 10 100 100 1000)).1 =
      BidResult.accepted ∧
    lookupKey 10 (handlePlaceBid 1 3 2 110 (selfOutbidState 10 100 100 1000)).2.bids =
      some { auction := 1, player := 2, team := 3, amount := 100,
             status := BidStatus.outbid } ∧
    lookupKey 2 (finalizePlayerBidding 1 2
        (handlePlaceBid 1 3 2 110 (selfOutbidState 10 100 100 1000)).2).players =
      some { auction := 1, status := PlayerAuctionStatus.sold, basePrice := 100,
             soldPrice := some 110, soldTo := some 3 } := by
  obtain ⟨ha, hb, -, -, -, hf, -⟩ :=
    C10_self_outbid 10 100 100 1000 110 (by decide) (by decide) (by decide)
  exact ⟨ha, hb, hf⟩

/-! ## Countdown-expiry machinery for the round trip

Between a bid acceptance and the countdown expiry the ticks only decrement
the timer and emit timer updates, so the durable collections after
`timeRemaining` many ticks equal those after a direct finalization.  `core`
projects out the four durable collections (everything except the timer map,
the fresh-id counter and the broadcast log). -/

def core (s : State) :
    List (Id × AuctionDoc) × List (Id × PlayerDoc) × List (Id × TeamDoc) ×
      List (Id × BidDoc) :=
  (s.auctions, s.players, s.teams, s.bids)

theorem finalize_core_congr (aid pid : Id) (s t : State)
    (h1 : s.auctions = t.auctions) (h2 : s.players = t.players)
    (h3 : s.teams = t.teams) (h4 : s.bids = t.bids) :
    core (finalizePlayerBidding aid pid s) =
      core (finalizePlayerBidding aid pid t) := by
  unfold finalizePlayerBidding
  simp only [h1, h2, h3, h4]
  cases hp : lookupKey pid t.players with
  | none => simp [core, h1, h2, h3, h4]
  | some p =>
    cases hb : highestActiveBid pid t.bids with
    | none => simp [core, h1, h2, h3, h4]
    | some bb =>
      obtain ⟨bk, b⟩ := bb
      cases ht : lookupKey b.team t.teams with
      | none => simp [core, h1, h2, h3, h4]
      | some tm => simp [core, h1, h2, h3, h4]

/-- Running the countdown to expiry: if the timer for `aid` was started
for `pid` and has `n + 1` seconds left, then after `n + 1` ticks the
durable collections are exactly those of a direct
`finalizePlayerBidding aid pid`. -/
theorem runTicks_expire (aid pid : Id) :
    ∀ (n : Nat) (s : State),
      lookupKey aid s.timers = some ⟨(n : Int) + 1, pid⟩ →
      core (runTicks aid (n + 1) s) = core (finalizePlayerBidding aid pid s) := by
  intro n
  induction n with
  | zero =>
    intro s ht
    show core (tick aid s) = _
    unfold tick
    rw [ht]
    simp only []
    rw [if_pos (by norm_num)]
    exact finalize_core_congr aid pid _ s rfl rfl rfl rfl
  | succ m ih =>
    intro s ht
    show core (runTicks aid (m + 1) (tick aid s)) = _
    have hcast : ((m : Int) + 1 + 1) - 1 = (m : Int) + 1 := by ring
    unfold tick
    rw [ht]
    simp only []
    rw [if_neg (by push_cast; omega)]
    have hlook : lookupKey aid
        (modKey aid (fun t0 => { t0 with timeRemaining := ((m : Int) + 1 + 1) - 1 })
          s.timers) = some ⟨(m : Int) + 1, pid⟩ := by
      rw [lookupKey_modKey_self, ht]
      simp [hcast]
    calc core (runTicks aid (m + 1)
            { s with
                timers := modKey aid
                  (fun t0 => { t0 with timeRemaining := ((m : Int) + 1 + 1) - 1 })
                  s.timers,
                events := s.events ++
                  [Event.timerUpdate aid pid (((m : Int) + 1 + 1) - 1)] }) =
          core (finalizePlayerBidding aid pid
            { s with
                timers := modKey aid
                  (fun t0 => { t0 with timeRemaining := ((m : Int) + 1 + 1) - 1 })
                  s.timers,
                events := s.events ++
                  [Event.timerUpdate aid pid (((m : Int) + 1 + 1) - 1)] }) :=
        ih _ hlook
      _ = core (finalizePlayerBidding aid pid s) :=
        finalize_core_congr aid pid _ s rfl rfl rfl rfl

/-- A live auction 1 (increment `inc`, countdown `d` seconds) with one
pending lot 2 of base price `B` and one team 3 with remaining budget `R`:
the starting point of the round trip. -/
def roundTripState (inc B R : Int) (d : Nat) : State :=
  { auctions := [(1, { createdBy := 4, status := AuctionStatus.live,
                       bidIncrementAmount := inc, bidTimerSeconds := (d : Int),
                       currentPlayerOnBlock := none })],
    players := [(2, { auction := 1, status := PlayerAuctionStatus.pending,
                      basePrice := B, soldPrice := none, soldTo := none })],
    teams := [(3, { auction := 1, remainingBudget := R, acquiredPlayers := [] })],
    bids := [], timers := [], nextBidId := 0, events := [] }

/-- C5.  Starting from a live auction with a pending lot (any base price
`B`, budget `R ≥ B`, increment, countdown duration `d ≥ 1`), the sequence
put-on-block → accepted bid of exactly the base price → countdown expiry
(the bid resets the timer to `d`, so `d` ticks) → finalize ends with the
lot `sold` at final price `B` to the bidding team, the winner's remaining
budget debited by exactly `B`, its acquired-lot count grown from zero to
one, and exactly one bid record for the lot, in state `won`. -/
theorem C5_round_trip (inc B R : Int) (d : Nat) (hd : 1 ≤ d) (hBR : B ≤ R) :
    (handlePlaceBid 1 3 2 B (handlePutOnBlock 2 (roundTripState inc B R d)).2).1 =
      BidResult.accepted ∧
    lookupKey 2 (runTicks 1 d
        (handlePlaceBid 1 3 2 B
          (handlePutOnBlock 2 (roundTripState inc B R d)).2).2).players =
      some { auction := 1, status := PlayerAuctionStatus.sold, basePrice := B,
             soldPrice := some B, soldTo := some 3 } ∧
    lookupKey 3 (runTicks 1 d
        (handlePlaceBid 1 3 2 B
          (handlePutOnBlock 2 (roundTripState inc B R d)).2).2).teams =
      some { auction := 1, remainingBudget := R - B,
             acquiredPlayers := [(2, B)] } ∧
    (runTicks 1 d
        (handlePlaceBid 1 3 2 B
          (handlePutOnBlock 2 (roundTripState inc B R d)).2).2).bids =
      [(0, { auction := 1, player := 2, team := 3, amount := B,
             status := BidStatus.won })] := by
  obtain ⟨m, rfl⟩ : ∃ m, d = m + 1 := ⟨d - 1, (Nat.succ_pred_eq_of_pos hd).symm⟩
  have hput : (handlePutOnBlock 2 (roundTripState inc B R (m + 1))).2 =
      { auctions := [(1, { createdBy := 4, status := AuctionStatus.live,
                           bidIncrementAmount := inc,
                           bidTimerSeconds := ((m + 1 : Nat) : Int),
                           currentPlayerOnBlock := some 2 })],
        players := [(2, { auction := 1, status := PlayerAuctionStatus.in_auction,
                          basePrice := B, soldPrice := none, soldTo := none })],
        teams := [(3, { auction := 1, remainingBudget := R, acquiredPlayers := [] })],
        bids := [],
        timers := [(1, { timeRemaining := ((m + 1 : Nat) : Int), playerId := 2 })],
        nextBidId := 0,
        events := [Event.timerUpdate 1 2 ((m + 1 : Nat) : Int),
                   Event.playerOnBlock 2 ((m + 1 : Nat) : Int)] } := rfl
  have hbid : handlePlaceBid 1 3 2 B
      { auctions := [(1, { createdBy := 4, status := AuctionStatus.live,
                           bidIncrementAmount := inc,
                           bidTimerSeconds := ((m + 1 : Nat) : Int),
                           currentPlayerOnBlock := some 2 })],
        players := [(2, { auction := 1, status := PlayerAuctionStatus.in_auction,
                          basePrice := B, soldPrice := none, soldTo := none })],
        teams := [(3, { auction := 1, remainingBudget := R, acquiredPlayers := [] })],
        bids := [],
        timers := [(1, { timeRemaining := ((m + 1 : Nat) : Int), playerId := 2 })],
        nextBidId := 0,
        events := [Event.timerUpdate 1 2 ((m + 1 : Nat) : Int),
                   Event.playerOnBlock 2 ((m + 1 : Nat) : Int)] } =
      (BidResult.accepted,
       { auctions := [(1, { createdBy := 4, status := AuctionStatus.live,
                            bidIncrementAmount := inc,
                            bidTimerSeconds := ((m + 1 : Nat) : Int),
                            currentPlayerOnBlock := some 2 })],
         players := [(2, { auction := 1, status := PlayerAuctionStatus.in_auction,
                           basePrice := B, soldPrice := none, soldTo := none })],
         teams := [(3, { auction := 1, remainingBudget := R, acquiredPlayers := [] })],
         bids := [(0, { auction := 1, player := 2, team := 3, amount := B,
                        status := BidStatus.active })],
         timers := [(1, { timeRemaining := ((m + 1 : Nat) : Int), playerId := 2 })],
         nextBidId := 1,
         events := [Event.timerUpdate 1 2 ((m + 1 : Nat) : Int),
                    Event.playerOnBlock 2 ((m + 1 : Nat) : Int),
                    Event.timerUpdate 1 2 ((m + 1 : Nat) : Int),
                    Event.bidUpdate 1 2 3 B] }) := by
    simp [handlePlaceBid, placeBidCheck, placeBidCommit, minimumBid,
      highestActiveBid, resetTimer, lookupKey, modKey, not_lt.mpr hBR]
  rw [hput, hbid]
  have hexp := runTicks_expire 1 2 m
      { auctions := [(1, { createdBy := 4, status := AuctionStatus.live,
                           bidIncrementAmount := inc,
                           bidTimerSeconds := ((m + 1 : Nat) : Int),
                           currentPlayerOnBlock := some 2 })],
        players := [(2, { auction := 1, status := PlayerAuctionStatus.in_auction,
                          basePrice := B, soldPrice := none, soldTo := none })],
        teams := [(3, { auction := 1, remainingBudget := R, acquiredPlayers := [] })],
        bids := [(0, { auction := 1, player := 2, team := 3, amount := B,
                       status := BidStatus.active })],
        timers := [(1, { timeRemaining := ((m + 1 : Nat) : Int), playerId := 2 })],
        nextBidId := 1,
        events := [Event.timerUpdate 1 2 ((m + 1 : Nat) : Int),
                   Event.playerOnBlock 2 ((m + 1 : Nat) : Int),
                   Event.timerUpdate 1 2 ((m + 1 : Nat) : Int),
                   Event.bidUpdate 1 2 3 B] }
      (by simp [lookupKey])
  rw [show finalizePlayerBidding 1 2
      { auctions := [(1, { createdBy := 4, status := AuctionStatus.live,
                           bidIncrementAmount := inc,
                           bidTimerSeconds := ((m + 1 : Nat) : Int),
                           currentPlayerOnBlock := some 2 })],
        players := [(2, { auction := 1, status := PlayerAuctionStatus.in_auction,
                          basePrice := B, soldPrice := none, soldTo := none })],
        teams := [(3, { auction := 1, remainingBudget := R, acquiredPlayers := [] })],
        bids := [(0, { auction := 1, player := 2, team := 3, amount := B,
                       status := BidStatus.active })],
        timers := [(1, { timeRemaining := ((m + 1 : Nat) : Int), playerId := 2 })],
        nextBidId := 1,
        events := [Event.timerUpdate 1 2 ((m + 1 : Nat) : Int),
                   Event.playerOnBlock 2 ((m + 1 : Nat) : Int),
                   Event.timerUpdate 1 2 ((m + 1 : Nat) : Int),
                   Event.bidUpdate 1 2 3 B] } =
      { auctions := [(1, { createdBy := 4, status := AuctionStatus.live,
                           bidIncrementAmount := inc,
                           bidTimerSeconds := ((m + 1 : Nat) : Int),
                           currentPlayerOnBlock := none })],
        players := [(2, { auction := 1, status := PlayerAuctionStatus.sold,
                          basePrice := B, soldPrice := some B, soldTo := some 3 })],
        teams := [(3, { auction := 1, remainingBudget := R - B,
                        acquiredPlayers := [(2, B)] })],
        bids := [(0, { auction := 1, player := 2, team := 3, amount := B,
                       status := BidStatus.won })],
        timers := [(1, { timeRemaining := ((m + 1 : Nat) : Int), playerId := 2 })],
        nextBidId := 1,
        events := [Event.timerUpdate 1 2 ((m + 1 : Nat) : Int),
                   Event.playerOnBlock 2 ((m + 1 : Nat) : Int),
                   Event.timerUpdate 1 2 ((m + 1 : Nat) : Int),
                   Event.bidUpdate 1 2 3 B,
                   Event.teamUpdate 3 (R - B) 1,
                   Event.playerSold 1 2 3 B] } from rfl] at hexp
  simp only [core, Prod.mk.injEq] at hexp
  refine ⟨rfl, ?_, ?_, ?_⟩
  · rw [hexp.2.1]
    simp [lookupKey]
  · rw [hexp.2.2.1]
    simp [lookupKey]
  · rw [hexp.2.2.2]

/-- Witness for C5 at a concrete input: increment 10, base price 100,
budget 500, countdown 3 seconds — the round trip sells lot 2 to team 3
for 100, leaving budget 400, one acquired lot, and one `won` bid. -/
theorem C5_round_trip_witness :
    (1 : Nat) ≤ 3 ∧ (100 : Int) ≤ 500 ∧
    lookupKey 2 (runTicks 1 3
        (handlePlaceBid 1 3 2 100
          (handlePutOnBlock 2 (roundTripState 10 100 500 3)).2).2).players =
      some { auction := 1, status := PlayerAuctionStatus.sold, basePrice := 100,
             soldPrice := some 100, soldTo := some 3 } ∧
    lookupKey 3 (runTicks 1 3
        (handlePlaceBid 1 3 2 100
          (handlePutOnBlock 2 (roundTripState 10 100 500 3)).2).2).teams =
      some { auction := 1, remainingBudget := 400, acquiredPlayers := [(2, 100)] } ∧
    (runTicks 1 3
        (handlePlaceBid 1 3 2 100
          (handlePutOnBlock 2 (roundTripState 10 100 500 3)).2).2).bids =
      [(0, { auction := 1, player := 2, team := 3, amount := 100,
             status := BidStatus.won })] := by
  obtain ⟨h1, h2, h3, h4⟩ := C5_round_trip 10 100 500 3 (by decide) (by decide)
  exact ⟨by decide, by decide, h2, by simpa using h3, h4⟩

end Bidzr

